import Mathlib

/-!
Verification of the Weather-Telemetry pipeline (fetcher + processor services).

The definitions below are a shallow embedding of the TypeScript sources:

* `src/services/fetcher/src/mock-weather.ts` — token-bucket Lua script
  (`CONSUME_LUA`), `RateLimiter.acquire` / `RateLimiter.notifyThrottled`,
  and `mockFetchWeather`;
* `src/services/fetcher/src/worker.ts` — `enqueueLocations` (scheduler) and
  `runWorker` (worker loop);
* `src/services/processor/src/consumer.ts` — `parseMessage`,
  `processMessages`, `startConsumer`;
* the HTTP client (`fetchWeather`, `axiosRetry` configuration) and the
  InfluxDB writer (`InfluxWriter.write`).

Conventions of the embedding:

* JavaScript / Lua floating-point numbers are modelled as rationals (`ℚ`);
  the operations the claims exercise (`+ - * min max` and comparisons) are
  exact on the values involved.
* JavaScript `Date` instants are epoch milliseconds (`Int`).  An ISO-8601
  string `YYYY-MM-DDTHH:MM:SS.sssZ` is modelled by the `ISODate` record of
  its numeric components (decimal digit rendering is injective, so nothing
  is lost); `msToISO` is `new Date(ms).toISOString()` and `isoToMs` is
  `Date.parse` on such a string.  The proleptic-Gregorian conversion both
  directions is implemented in full (the ECMA-262 calendar, in the
  `civilFromDays` / `daysFromCivil` formulation); divisors are positive so
  `Int` division `/` (Euclidean) coincides with the floor division the
  algorithm requires.
* Fallible operations return `Option`; a JavaScript exception is `none`.
* Redis state (keys, hashes, lists, streams, consumer-group pending lists)
  is passed explicitly; the broker executes commands atomically.
-/

namespace Weather

/-! ## Calendar arithmetic (the semantics of `Date.prototype.toISOString` and
`Date.parse` on the fetcher's `recorded_at` strings) -/

/-- Civil date from a day count, after the era/day-of-era split: year of era,
day of year, month and day follow the standard proleptic-Gregorian
conversion used by ECMA-262 dates (Hinnant's `civil_from_days`). -/
def civilParts (era : Int) (doe : Nat) : Int × Nat × Nat :=
  let yoe : Nat := (doe - doe / 1460 + doe / 36524 - doe / 146096) / 365
  let doy : Nat := doe - (365 * yoe + yoe / 4 - yoe / 100)
  let mp : Nat := (5 * doy + 2) / 153
  let d : Nat := doy - (153 * mp + 2) / 5 + 1
  let m : Nat := if mp < 10 then mp + 3 else mp - 9
  (era * 400 + (yoe : Int) + (if m ≤ 2 then 1 else 0), m, d)

/-- Days since 1970-01-01 to civil (year, month, day). -/
def civilFromDays (z : Int) : Int × Nat × Nat :=
  civilParts ((z + 719468) / 146097) ((z + 719468) % 146097).toNat

/-- Civil (year, month, day) to days since 1970-01-01 (Hinnant's
`days_from_civil`, the inverse conversion used when parsing a date). -/
def daysFromCivil (y : Int) (m d : Nat) : Int :=
  let yAdj : Int := if m ≤ 2 then y - 1 else y
  let era : Int := yAdj / 400
  let yoe : Nat := (yAdj % 400).toNat
  let doy : Nat := (153 * (if 2 < m then m - 3 else m + 9) + 2) / 5 + d - 1
  let doe : Nat := yoe * 365 + yoe / 4 - yoe / 100 + doy
  era * 146097 + (doe : Int) - 719468

/-- The year-of-era formula from `civilParts`, as a standalone function. -/
def yoeFun (doe : Nat) : Nat := (doe - doe / 1460 + doe / 36524 - doe / 146096) / 365

/-- First day-of-era of a year-of-era. -/
def yearStart (y : Nat) : Nat := 365 * y + y / 4 - y / 100

/-- Day of year from `civilParts`, as a standalone function. -/
def doyFun (doe : Nat) : Nat := doe - yearStart (yoeFun doe)

/-- Shifted month index from `civilParts`, as a standalone function. -/
def mpFun (doy : Nat) : Nat := (5 * doy + 2) / 153

/-- Day of month from `civilParts`, as a standalone function. -/
def domFun (doy : Nat) : Nat := doy - (153 * mpFun doy + 2) / 5 + 1

/-- Month from `civilParts`, as a standalone function. -/
def monthFun (doy : Nat) : Nat :=
  if mpFun doy < 10 then mpFun doy + 3 else mpFun doy - 9

theorem yoe_arg_mono (n : Nat) :
    n - n / 1460 + n / 36524 - n / 146096 ≤
    (n + 1) - (n + 1) / 1460 + (n + 1) / 36524 - (n + 1) / 146096 := by omega

theorem yoeFun_monotone : Monotone yoeFun := by
  have h : Monotone (fun n => n - n / 1460 + n / 36524 - n / 146096) :=
    monotone_nat_of_le_succ yoe_arg_mono
  intro a b hab
  exact Nat.div_le_div_right (h hab)

set_option maxRecDepth 4000 in
theorem yoeFun_at_year_start_pred : ∀ y < 400, 1 ≤ y → yoeFun (yearStart y - 1) = y - 1 := by
  decide

set_option maxRecDepth 4000 in
theorem yoeFun_past_year_end : ∀ y < 399, yoeFun (yearStart y + 366) = y + 1 := by decide

/-- The year-of-era formula lands inside the era, at or after the start of the
computed year, and at most 365 days after it. -/
theorem hinnant_core (doe : Nat) (h : doe ≤ 146096) :
    yoeFun doe ≤ 399 ∧ yearStart (yoeFun doe) ≤ doe ∧ doe ≤ yearStart (yoeFun doe) + 365 := by
  have hmono := yoeFun_monotone
  have h399 : yoeFun doe ≤ 399 := by
    have ha := hmono h
    have hb : yoeFun 146096 = 399 := by decide
    omega
  refine ⟨h399, ?_, ?_⟩
  · by_contra hc
    push_neg at hc
    have hy1 : 1 ≤ yoeFun doe := by
      rcases Nat.eq_zero_or_pos (yoeFun doe) with h0 | h1
      · rw [h0] at hc; simp [yearStart] at hc
      · exact h1
    have hle : doe ≤ yearStart (yoeFun doe) - 1 := by omega
    have hm2 := hmono hle
    have hc1 := yoeFun_at_year_start_pred (yoeFun doe) (by omega) hy1
    omega
  · by_contra hc
    push_neg at hc
    rcases Nat.lt_or_ge (yoeFun doe) 399 with hlt | hge
    · have hle : yearStart (yoeFun doe) + 366 ≤ doe := by omega
      have hm2 := hmono hle
      have hc2 := yoeFun_past_year_end (yoeFun doe) hlt
      omega
    · have heq : yoeFun doe = 399 := by omega
      have hys : yearStart 399 = 145731 := by decide
      rw [heq] at hc
      omega

/-- Inverting a civil date produced from a day-of-era, with every
intermediate value abstracted. -/
theorem daysFromCivil_assemble (era : Int) (doe yoe doy mp d m : Nat)
    (h1 : yoe ≤ 399)
    (h2 : yearStart yoe ≤ doe)
    (h3 : doe ≤ yearStart yoe + 365)
    (hdoy : doy = doe - yearStart yoe)
    (hmp : mp = (5 * doy + 2) / 153)
    (hd : d = doy - (153 * mp + 2) / 5 + 1)
    (hm : m = if mp < 10 then mp + 3 else mp - 9) :
    daysFromCivil (era * 400 + (yoe : Int) + (if m ≤ 2 then 1 else 0)) m d
      = era * 146097 + (doe : Int) - 719468 := by
  simp only [yearStart] at h2 h3 hdoy
  simp only [daysFromCivil]
  split_ifs at hm ⊢ <;> omega

theorem civilParts_eq (era : Int) (doe : Nat) :
    civilParts era doe =
      (era * 400 + (yoeFun doe : Int) + (if monthFun (doyFun doe) ≤ 2 then 1 else 0),
        monthFun (doyFun doe), domFun (doyFun doe)) := rfl

theorem civilParts_roundtrip (era : Int) (doe : Nat) (h : doe ≤ 146096) :
    daysFromCivil (civilParts era doe).1 (civilParts era doe).2.1 (civilParts era doe).2.2
      = era * 146097 + (doe : Int) - 719468 := by
  obtain ⟨h1, h2, h3⟩ := hinnant_core doe h
  rw [civilParts_eq]
  exact daysFromCivil_assemble era doe (yoeFun doe) (doyFun doe) (mpFun (doyFun doe))
    (domFun (doyFun doe)) (monthFun (doyFun doe)) h1 h2 h3 rfl rfl rfl rfl

/-- `daysFromCivil` inverts `civilFromDays` on every day count. -/
theorem daysFromCivil_civilFromDays (z : Int) :
    daysFromCivil (civilFromDays z).1 (civilFromDays z).2.1 (civilFromDays z).2.2 = z := by
  have hn : (0 : Int) ≤ (z + 719468) % 146097 := Int.emod_nonneg _ (by norm_num)
  have hl : (z + 719468) % 146097 < 146097 := Int.emod_lt_of_pos _ (by norm_num)
  have h146 : ((z + 719468) % 146097).toNat ≤ 146096 := by omega
  have hrt := civilParts_roundtrip ((z + 719468) / 146097) _ h146
  simp only [civilFromDays]
  rw [hrt]
  have hde := Int.ediv_add_emod (z + 719468) 146097
  omega

/-! ## ISO-8601 timestamps -/

/-- The numeric components of an ISO-8601 UTC timestamp string
`YYYY-MM-DDTHH:MM:SS.sssZ`. -/
structure ISODate where
  year : Int
  month : Nat
  day : Nat
  hour : Nat
  minute : Nat
  second : Nat
  millisecond : Nat
deriving DecidableEq

/-- `new Date(ms).toISOString()`: decompose epoch milliseconds into ISO
components (ECMA-262 `Date` arithmetic, all floor divisions). -/
def msToISO (ms : Int) : ISODate :=
  let rem : Nat := (ms % 86400000).toNat
  let ymd := civilFromDays (ms / 86400000)
  { year := ymd.1
    month := ymd.2.1
    day := ymd.2.2
    hour := rem / 3600000
    minute := rem % 3600000 / 60000
    second := rem % 60000 / 1000
    millisecond := rem % 1000 }

/-- `Date.parse` on an ISO-8601 UTC timestamp: recompose epoch
milliseconds from the components. -/
def isoToMs (dt : ISODate) : Int :=
  daysFromCivil dt.year dt.month dt.day * 86400000
    + ((dt.hour * 3600000 + dt.minute * 60000 + dt.second * 1000 + dt.millisecond : Nat) : Int)

/-- `Date.parse` inverts `toISOString` exactly, for every instant. -/
theorem isoToMs_msToISO (ms : Int) : isoToMs (msToISO ms) = ms := by
  have hn : (0 : Int) ≤ ms % 86400000 := Int.emod_nonneg _ (by norm_num)
  have hl : ms % 86400000 < 86400000 := Int.emod_lt_of_pos _ (by norm_num)
  have hde := Int.ediv_add_emod ms 86400000
  simp only [msToISO, isoToMs]
  rw [daysFromCivil_civilFromDays]
  omega

/-- `new Date(ms).toISOString()` with the ECMA-262 range check: a `Date`
whose time value exceeds ±8.64e15 ms is invalid and `toISOString` throws. -/
def jsToISOString (ms : Int) : Option ISODate :=
  if ms.natAbs ≤ 8640000000000000 then some (msToISO ms) else none

/-! ## Data model -/

/-- A catalog entry from `locations.ts`. -/
structure Location where
  city_name : String
  latitude : ℚ
  longitude : ℚ
deriving DecidableEq

/-- The `current_weather` object of a successful Open-Meteo response
(requested with `timeformat=unixtime`, so `time` is epoch seconds). -/
structure CurrentWeather where
  temperature : ℚ
  weathercode : Int
  time : Int
deriving DecidableEq

/-- The `WeatherPayload` interface produced by `fetchWeather` /
`mockFetchWeather`.  `recorded_at` is the ISO-8601 string, modelled by its
components. -/
structure WeatherPayload where
  city_name : String
  latitude : ℚ
  longitude : ℚ
  temperature : ℚ
  weather_condition : String
  recorded_at : ISODate
deriving DecidableEq

/-! ## Upstream HTTP client (`fetchWeather` of the fetcher service) -/

/-- The `WMO_CODES` table. -/
def wmoCodes : List (Int × String) :=
  [(0, "Clear sky"),
   (1, "Mainly clear"), (2, "Partly cloudy"), (3, "Overcast"),
   (45, "Fog"), (48, "Rime fog"),
   (51, "Light drizzle"), (53, "Moderate drizzle"), (55, "Dense drizzle"),
   (61, "Slight rain"), (63, "Moderate rain"), (65, "Heavy rain"),
   (71, "Slight snow"), (73, "Moderate snow"), (75, "Heavy snow"),
   (80, "Slight showers"), (81, "Moderate showers"), (82, "Violent showers"),
   (95, "Thunderstorm"), (96, "Thunderstorm with hail"), (99, "Thunderstorm with heavy hail")]

/-- `WMO_CODES[code] ?? "WMO-" + code`. -/
def wmoLabel (code : Int) : String :=
  match wmoCodes.lookup code with
  | some label => label
  | none => "WMO-" ++ toString code

/-- The success path of `fetchWeather` (real mode): build the payload from
the location and the upstream `current_weather` object.  `recorded_at` is
`new Date(cw.time * 1000).toISOString()`; `none` models the `RangeError`
thrown for an out-of-range instant. -/
def fetchWeatherReal (loc : Location) (cw : CurrentWeather) : Option WeatherPayload :=
  (jsToISOString (cw.time * 1000)).map fun iso =>
    { city_name := loc.city_name
      latitude := loc.latitude
      longitude := loc.longitude
      temperature := cw.temperature
      weather_condition := wmoLabel cw.weathercode
      recorded_at := iso }

/-! ## Time-series writer (`InfluxWriter.write`) -/

/-- The point handed to the Influx write API: measurement `weather`, two
tags, three float fields, and a millisecond timestamp. -/
structure InfluxPoint where
  measurement : String
  tag_city_name : String
  tag_weather_condition : String
  field_temperature : ℚ
  field_latitude : ℚ
  field_longitude : ℚ
  timestampMs : Int
deriving DecidableEq

/-- `InfluxWriter.write`: tags from `city_name` / `weather_condition`,
float fields from `temperature` / `latitude` / `longitude`, timestamp
`Date.parse(point.recorded_at)`. -/
def influxWrite (p : WeatherPayload) : InfluxPoint :=
  { measurement := "weather"
    tag_city_name := p.city_name
    tag_weather_condition := p.weather_condition
    field_temperature := p.temperature
    field_latitude := p.latitude
    field_longitude := p.longitude
    timestampMs := isoToMs p.recorded_at }

/-- C6: for any Location L and any successful upstream response R, the point
produced by `fetchWeather` composed with `InfluxWriter.write` has
`city_name = L.city_name`, latitude and longitude equal to L's as floats,
`temperature = R.temperature`, `weather_condition = WMO_TABLE[R.weathercode]`
when the code is in the table and the literal `WMO-n` otherwise, and
timestamp exactly `R.time * 1000` milliseconds. -/
theorem fetch_write_point (L : Location) (cw : CurrentWeather) (p : WeatherPayload)
    (h : fetchWeatherReal L cw = some p) :
    (influxWrite p).measurement = "weather" ∧
    (influxWrite p).tag_city_name = L.city_name ∧
    (influxWrite p).field_latitude = L.latitude ∧
    (influxWrite p).field_longitude = L.longitude ∧
    (influxWrite p).field_temperature = cw.temperature ∧
    (∀ label, wmoCodes.lookup cw.weathercode = some label →
      (influxWrite p).tag_weather_condition = label) ∧
    (wmoCodes.lookup cw.weathercode = none →
      (influxWrite p).tag_weather_condition = "WMO-" ++ toString cw.weathercode) ∧
    (influxWrite p).timestampMs = cw.time * 1000 := by
  simp only [fetchWeatherReal, jsToISOString] at h
  split_ifs at h with hrange
  · simp only [Option.map_some', Option.some.injEq] at h
    subst h
    refine ⟨rfl, rfl, rfl, rfl, rfl, ?_, ?_, ?_⟩
    · intro label hl
      simp [influxWrite, wmoLabel, hl]
    · intro hl
      simp [influxWrite, wmoLabel, hl]
    · simp only [influxWrite]
      exact isoToMs_msToISO (cw.time * 1000)
  · simp at h

/-- A concrete location for evaluating the fetch/write chain. -/
def sampleLocation : Location := { city_name := "London", latitude := 51, longitude := 0 }

/-- A concrete successful upstream response (`weathercode 3 = Overcast`,
observation time 1700000000 epoch seconds). -/
def sampleCw : CurrentWeather := { temperature := 13, weathercode := 3, time := 1700000000 }

/-- The payload `fetchWeather` produces for `sampleLocation` / `sampleCw`. -/
def samplePayload : WeatherPayload :=
  { city_name := "London"
    latitude := 51
    longitude := 0
    temperature := 13
    weather_condition := wmoLabel 3
    recorded_at := msToISO 1700000000000 }

theorem fetch_write_point_witness :
    (influxWrite samplePayload).tag_city_name = "London" ∧
    (influxWrite samplePayload).tag_weather_condition = "Overcast" ∧
    (influxWrite samplePayload).timestampMs = 1700000000000 := by
  have h := fetch_write_point sampleLocation sampleCw samplePayload rfl
  exact ⟨h.2.1, h.2.2.2.2.2.1 "Overcast" rfl, h.2.2.2.2.2.2.2⟩

/-! ## Mock producer (`mock-weather.ts`) -/

/-- The weighted `CONDITIONS` pool. -/
def conditionsPool : List (String × ℚ) :=
  [("Clear sky", 20), ("Mainly clear", 18), ("Partly cloudy", 16), ("Overcast", 12),
   ("Fog", 4), ("Light drizzle", 6), ("Moderate rain", 7), ("Heavy rain", 4),
   ("Slight showers", 5), ("Thunderstorm", 3), ("Slight snow", 3), ("Moderate snow", 1),
   ("Rime fog", 1)]

/-- `TOTAL_WEIGHT`. -/
def totalWeight : ℚ := (conditionsPool.map Prod.snd).sum

/-- `condition.includes("snow")`. -/
def includesSnow (s : String) : Bool := 1 < (s.splitOn "snow").length

/-- The roll-subtraction loop of `pickCondition`. -/
def pickFrom : List (String × ℚ) → ℚ → Bool → String
  | [], _, _ => "Clear sky"
  | (c, w) :: rest, roll, canSnow =>
    if roll - w ≤ 0 then
      if includesSnow c ∧ canSnow = false then "Moderate rain" else c
    else pickFrom rest (roll - w) canSnow

/-- `pickCondition(lat)` with the `Math.random()` draw passed in as
`rand01`. -/
def pickCondition (lat : ℚ) (rand01 : ℚ) : String :=
  pickFrom conditionsPool (rand01 * totalWeight) (decide (45 < |lat|))

/-- `Math.round`: floor of the argument plus one half. -/
def jsRound (q : ℚ) : Int := ⌊q + 1 / 2⌋

/-- `mockTemperature(lat)`, with `new Date().getMonth()` and the
`Math.random()` draw passed in. -/
def mockTemperature (lat : ℚ) (month : Nat) (rand01 : ℚ) : ℚ :=
  let base := 30 - |lat| * (1 / 2)
  let isSummer := decide (5 ≤ month ∧ month ≤ 8)
  let isNH := decide (0 ≤ lat)
  let seasonal : ℚ := if isSummer = isNH then 5 else -5
  let noise := (rand01 - 1 / 2) * 8
  ((jsRound ((base + seasonal + noise) * 10) : ℚ)) / 10

/-- `mockFetchWeather(location)`: same payload shape as the real fetch, but
`recorded_at` is `new Date().toISOString()` — the current instant `nowMs`
at which the mock observation is generated. -/
def mockFetchWeather (loc : Location) (nowMs : Int) (month : Nat)
    (randTemp randCond : ℚ) : WeatherPayload :=
  { city_name := loc.city_name
    latitude := loc.latitude
    longitude := loc.longitude
    temperature := mockTemperature loc.latitude month randTemp
    weather_condition := pickCondition loc.latitude randCond
    recorded_at := msToISO nowMs }

/-- C9 counterexample: in mock mode the `recorded_at` carried into the
stream is exactly the ISO form of the generation (ingestion) instant — here
the mock called at instant 12345 ms stamps 12345 ms — and it changes when
only the ingestion instant changes, refuting "never the time of
ingestion" for the mock path. -/
theorem mock_recorded_at_is_ingestion_time :
    (mockFetchWeather { city_name := "Nulltown", latitude := 0, longitude := 0 }
        12345 0 0 0).recorded_at = msToISO 12345 ∧
    (mockFetchWeather { city_name := "Nulltown", latitude := 0, longitude := 0 }
        12345 0 0 0).recorded_at ≠
      (mockFetchWeather { city_name := "Nulltown", latitude := 0, longitude := 0 }
        98765432 0 0 0).recorded_at := by
  exact ⟨rfl, by decide⟩

/-- C9 amended: on the real fetch path `recorded_at` is the upstream-reported
observation time (`R.time * 1000` rendered to ISO), independent of the
ingestion instant; on the mock path `recorded_at` is the mock's own
generation instant, which stands in for the upstream observation time. -/
theorem recorded_at_provenance :
    (∀ (loc : Location) (cw : CurrentWeather) (p : WeatherPayload),
      fetchWeatherReal loc cw = some p → p.recorded_at = msToISO (cw.time * 1000)) ∧
    (∀ (loc : Location) (nowMs : Int) (month : Nat) (r1 r2 : ℚ),
      (mockFetchWeather loc nowMs month r1 r2).recorded_at = msToISO nowMs) := by
  constructor
  · intro loc cw p h
    simp only [fetchWeatherReal, jsToISOString] at h
    split_ifs at h with hrange
    · simp only [Option.map_some', Option.some.injEq] at h
      subst h
      rfl
    · simp at h
  · intro loc nowMs month r1 r2
    rfl

theorem recorded_at_provenance_witness :
    samplePayload.recorded_at = msToISO 1700000000000 :=
  recorded_at_provenance.1 sampleLocation sampleCw samplePayload rfl

/-! ## Token-bucket rate limiter (`CONSUME_LUA` and `RateLimiter`) -/

/-- The reply of one evaluation of the consume script: the returned flag
(1 = granted, 0 = denied), the `tokens` / `last_refill` values stored back
with `HMSET`, and the TTL set with `EXPIRE`. -/
structure ConsumeReply where
  granted : Bool
  storedTokens : ℚ
  storedLastRefill : ℚ
  ttlSeconds : Nat
deriving DecidableEq

/-- `CONSUME_LUA`: `HMGET` yields the two fields (each `nil` when absent,
defaulted by `tonumber(...) or ...`), refill by elapsed time, then branch
on whether a whole token is available. -/
def consumeLua (tokensField lastRefillField : Option ℚ)
    (capacity refillRate now : ℚ) : ConsumeReply :=
  let tokens := tokensField.getD capacity
  let lastRefill := lastRefillField.getD now
  let elapsed := max 0 (now - lastRefill)
  let newTokens := min capacity (tokens + elapsed * refillRate)
  if 1 ≤ newTokens then
    { granted := true, storedTokens := newTokens - 1, storedLastRefill := now, ttlSeconds := 60 }
  else
    { granted := false, storedTokens := newTokens, storedLastRefill := now, ttlSeconds := 60 }

/-- One script call as issued by `RateLimiter.acquire`: key state is the
stored `(tokens, last_refill)` hash (absent when evicted), `CAPACITY = 8`,
`MAX_RPS = 8`, and `now` in seconds. -/
def acquireScriptCall (state : Option (ℚ × ℚ)) (now : ℚ) : ConsumeReply :=
  consumeLua (state.map Prod.fst) (state.map Prod.snd) 8 8 now

/-- The claim's description of the acquire script, written from its words:
with capacity `C = 8` and refill rate `R = 8`, load the stored state
defaulting to `(C, t)` when the key is absent, compute
`elapsed = max(0, t - last_refill)` and
`tokensNew = min(C, tokens + elapsed * R)`; if `tokensNew ≥ 1` store
`(tokensNew - 1, t)` with TTL 60 s and return GRANTED, otherwise store
`(tokensNew, t)` with TTL 60 s and return DENIED. -/
def claimAcquireSpec (state : Option (ℚ × ℚ)) (t : ℚ) : ConsumeReply :=
  let c : ℚ := 8
  let r : ℚ := 8
  let s := state.getD (c, t)
  let elapsed := max 0 (t - s.2)
  let tokensNew := min c (s.1 + elapsed * r)
  if 1 ≤ tokensNew then
    { granted := true, storedTokens := tokensNew - 1, storedLastRefill := t, ttlSeconds := 60 }
  else
    { granted := false, storedTokens := tokensNew, storedLastRefill := t, ttlSeconds := 60 }

/-- C1: the token-bucket acquire script, executed with capacity 8, refill
rate 8 tokens/sec and current time `t`, behaves exactly as the claim
describes on every stored state (including the absent-key default). -/
theorem acquire_script_correct (state : Option (ℚ × ℚ)) (t : ℚ) :
    acquireScriptCall state t = claimAcquireSpec state t := by
  cases state with
  | none => rfl
  | some s => rfl

/-! ## Cooldown (`RateLimiter.notifyThrottled`) -/

/-- `SET key value EX ttl NX` on a key modelled by its absolute expiry
instant in seconds (`none` when absent; an expired key counts as absent):
the write happens only when no live value exists. -/
def setNxEx (state : Option Int) (now ttl : Int) : Option Int :=
  match state with
  | some expiry => if now < expiry then some expiry else some (now + ttl)
  | none => some (now + ttl)

/-- `notifyThrottled`: `SET cooldown "1" EX 30 NX` (`COOLDOWN_S = 30`). -/
def notifyThrottled (state : Option Int) (now : Int) : Option Int :=
  setNxEx state now 30

theorem notifyThrottled_active_fixed (expiry now : Int) (h : now < expiry) :
    notifyThrottled (some expiry) now = some expiry := by
  simp [notifyThrottled, setNxEx, h]

theorem foldl_notifyThrottled_active (t : Int) :
    ∀ ts : List Int, (∀ s ∈ ts, s < t + 30) →
      ts.foldl notifyThrottled (some (t + 30)) = some (t + 30) := by
  intro ts
  induction ts with
  | nil => intro _; rfl
  | cons s rest ih =>
    intro h
    have hs : s < t + 30 := h s (List.mem_cons_self s rest)
    have hrest : ∀ x ∈ rest, x < t + 30 := fun x hx => h x (List.mem_cons_of_mem s hx)
    simp only [List.foldl_cons, notifyThrottled_active_fixed (t + 30) s hs]
    exact ih hrest

/-- C8: `notifyThrottled` sets the cooldown key with a fixed 30 s TTL only
if the key is absent, so a notification during an active cooldown leaves
the stored expiry unchanged, and any sequence of further notifications
arriving while the first cooldown is active results in exactly the state
produced by the first notification alone. -/
theorem notifyThrottled_first_wins :
    (∀ expiry now : Int, now < expiry → notifyThrottled (some expiry) now = some expiry) ∧
    (∀ (t : Int) (ts : List Int), (∀ s ∈ ts, t ≤ s ∧ s < t + 30) →
      ts.foldl notifyThrottled (notifyThrottled none t) = notifyThrottled none t) := by
  refine ⟨notifyThrottled_active_fixed, ?_⟩
  intro t ts h
  have hfirst : notifyThrottled none t = some (t + 30) := rfl
  rw [hfirst]
  exact foldl_notifyThrottled_active t ts fun s hs => (h s hs).2

theorem notifyThrottled_first_wins_witness :
    [(5 : Int), 11, 29].foldl notifyThrottled (notifyThrottled none 0) =
      notifyThrottled none 0 := by
  refine notifyThrottled_first_wins.2 0 [5, 11, 29] ?_
  decide

/-! ## Scheduler (`enqueueLocations` of `scheduler.ts`) -/

/-- The broker state the scheduler touches: the cycle counter
(`weather:cycle:id`), the cycle start record (`weather:cycle:start_ms`) and
the job list (`weather:locations:queue`, head = most recent `LPUSH`).
Queue items are the JSON serialization of a location, modelled by the
location value itself (no claim inspects the encoding). -/
structure SchedulerState where
  cycleId : Int
  cycleStartMs : Option Int
  queue : List Location
deriving DecidableEq

/-- One command of the scheduler's pipeline batch. -/
inductive QueueCmd where
  | setStart (ms : Int)
  | delQueue
  | lpush (loc : Location)
deriving DecidableEq

/-- Broker execution of one pipelined command. -/
def applyQueueCmd (st : SchedulerState) : QueueCmd → SchedulerState
  | .setStart ms => { st with cycleStartMs := some ms }
  | .delQueue => { st with queue := [] }
  | .lpush loc => { st with queue := loc :: st.queue }

/-- The single pipeline batch issued by `enqueueLocations`: set the cycle
start, delete the queue, then one `LPUSH` per location. -/
def enqueuePipeline (locs : List Location) (nowMs : Int) : List QueueCmd :=
  QueueCmd.setStart nowMs :: QueueCmd.delQueue :: locs.map QueueCmd.lpush

/-- `enqueueLocations`: `INCR` the cycle counter, then execute the pipeline
batch. -/
def enqueueLocations (locs : List Location) (nowMs : Int) (st : SchedulerState) :
    SchedulerState :=
  (enqueuePipeline locs nowMs).foldl applyQueueCmd { st with cycleId := st.cycleId + 1 }

theorem foldl_lpush_queue (locs : List Location) :
    ∀ st : SchedulerState,
      ((locs.map QueueCmd.lpush).foldl applyQueueCmd st).queue = locs.reverse ++ st.queue ∧
      ((locs.map QueueCmd.lpush).foldl applyQueueCmd st).cycleId = st.cycleId := by
  induction locs with
  | nil => intro st; exact ⟨by simp, rfl⟩
  | cons l rest ih =>
    intro st
    have h := ih { st with queue := l :: st.queue }
    simp only [List.map_cons, List.foldl_cons, applyQueueCmd] at h ⊢
    refine ⟨?_, h.2⟩
    rw [h.1]
    simp

/-- C2: immediately after `enqueueLocations` completes the queue contains
exactly one item per catalog location, the cycle counter has been
incremented, and the delete-then-push work is issued as a single pipelined
batch in which the `DEL` precedes every `LPUSH`. -/
theorem enqueueLocations_correct (locs : List Location) (nowMs : Int) (st : SchedulerState) :
    (enqueueLocations locs nowMs st).queue.length = locs.length ∧
    (enqueueLocations locs nowMs st).cycleId = st.cycleId + 1 ∧
    (∀ j loc, (enqueuePipeline locs nowMs).get? j = some (QueueCmd.lpush loc) →
      ∃ i, i < j ∧ (enqueuePipeline locs nowMs).get? i = some QueueCmd.delQueue) := by
  have hq := foldl_lpush_queue locs
    { cycleId := st.cycleId + 1, cycleStartMs := some nowMs, queue := [] }
  refine ⟨?_, ?_, ?_⟩
  · simp only [enqueueLocations, enqueuePipeline, List.foldl_cons, applyQueueCmd]
    rw [hq.1]
    simp
  · simp only [enqueueLocations, enqueuePipeline, List.foldl_cons, applyQueueCmd]
    exact hq.2
  · intro j loc hj
    refine ⟨1, ?_, rfl⟩
    match j, hj with
    | 0, hj => exact absurd hj (by simp [enqueuePipeline])
    | 1, hj => exact absurd hj (by simp [enqueuePipeline])
    | (n + 2), hj => omega

theorem enqueueLocations_correct_witness :
    (enqueueLocations [{ city_name := "London", latitude := 51, longitude := 0 }] 7
      { cycleId := 4, cycleStartMs := none, queue := [] }).queue.length = 1 ∧
    (enqueueLocations [{ city_name := "London", latitude := 51, longitude := 0 }] 7
      { cycleId := 4, cycleStartMs := none, queue := [] }).cycleId = 5 ∧
    (1 : Nat) < 2 ∧
    (enqueuePipeline [{ city_name := "London", latitude := 51, longitude := 0 }] 7).get? 1 =
      some QueueCmd.delQueue := by
  have h := enqueueLocations_correct
    [{ city_name := "London", latitude := 51, longitude := 0 }] 7
    { cycleId := 4, cycleStartMs := none, queue := [] }
  obtain ⟨i, hi, hdel⟩ := h.2.2 2 { city_name := "London", latitude := 51, longitude := 0 } rfl
  refine ⟨h.1, h.2.1, ?_, ?_⟩
  · decide
  · rfl

/-! ## Worker loop (`runWorker` of `worker.ts`) -/

/-- The observable effects of one pass through the worker loop, in program
order. -/
inductive WorkerEv where
  | brpopQueue
  | mgetCycleKeys
  | acquireToken
  | fetchBegin
  | fetchEnd
  | bucketOkIncrement
  | bucketLatencyPush
  | streamAppend
  | logSuccess
deriving DecidableEq, BEq

/-- Worker-visible state: the stream (`weather:raw`) and the in-memory
second bucket the success is recorded into. -/
structure WorkerState where
  stream : List WeatherPayload
  bucketOk : Nat
  bucketLatencies : List Int
deriving DecidableEq

/-- One successful iteration of `runWorker`: pop, read the cycle keys,
acquire a token, fetch, then record the success into the second bucket
(`bucket.ok++`, `bucket.latencies.push`) and finally `XADD` the result to
the stream.  Returns the new state and the ordered event trace. -/
def workerSuccessIteration (result : WeatherPayload) (latencyMs : Int)
    (st : WorkerState) : WorkerState × List WorkerEv :=
  let st1 : WorkerState := { st with bucketOk := st.bucketOk + 1 }
  let st2 : WorkerState := { st1 with bucketLatencies := st1.bucketLatencies ++ [latencyMs] }
  let st3 : WorkerState := { st2 with stream := st2.stream ++ [result] }
  (st3,
    [WorkerEv.brpopQueue, WorkerEv.mgetCycleKeys, WorkerEv.acquireToken,
     WorkerEv.fetchBegin, WorkerEv.fetchEnd,
     WorkerEv.bucketOkIncrement, WorkerEv.bucketLatencyPush,
     WorkerEv.streamAppend, WorkerEv.logSuccess])

/-- C7 counterexample: in the successful iteration's trace the second-bucket
success increment occurs strictly before the stream append (`bucket.ok++`
is executed before `XADD`), refuting "the stream append completes strictly
before the second-bucket success counter is incremented". -/
theorem worker_bucket_before_append :
    ((workerSuccessIteration
        { city_name := "London", latitude := 51, longitude := 0, temperature := 13,
          weather_condition := "Overcast", recorded_at := msToISO 0 }
        120 { stream := [], bucketOk := 0, bucketLatencies := [] }).2.indexOf
      WorkerEv.bucketOkIncrement <
      (workerSuccessIteration
        { city_name := "London", latitude := 51, longitude := 0, temperature := 13,
          weather_condition := "Overcast", recorded_at := msToISO 0 }
        120 { stream := [], bucketOk := 0, bucketLatencies := [] }).2.indexOf
      WorkerEv.streamAppend) ∧
    ¬ ((workerSuccessIteration
        { city_name := "London", latitude := 51, longitude := 0, temperature := 13,
          weather_condition := "Overcast", recorded_at := msToISO 0 }
        120 { stream := [], bucketOk := 0, bucketLatencies := [] }).2.indexOf
      WorkerEv.streamAppend <
      (workerSuccessIteration
        { city_name := "London", latitude := 51, longitude := 0, temperature := 13,
          weather_condition := "Overcast", recorded_at := msToISO 0 }
        120 { stream := [], bucketOk := 0, bucketLatencies := [] }).2.indexOf
      WorkerEv.bucketOkIncrement) := by
  constructor
  · decide
  · decide

/-- C7 amended: in every successful iteration of a single worker's loop the
token acquire completes strictly before the upstream fetch begins, and the
second-bucket success counter increment completes strictly before the
stream append (the code records the success into the bucket first and then
issues `XADD`). -/
theorem worker_iteration_order (result : WeatherPayload) (latencyMs : Int) (st : WorkerState) :
    (workerSuccessIteration result latencyMs st).2.indexOf WorkerEv.acquireToken <
      (workerSuccessIteration result latencyMs st).2.indexOf WorkerEv.fetchBegin ∧
    (workerSuccessIteration result latencyMs st).2.indexOf WorkerEv.bucketOkIncrement <
      (workerSuccessIteration result latencyMs st).2.indexOf WorkerEv.streamAppend := by
  have htrace : (workerSuccessIteration result latencyMs st).2 =
      [WorkerEv.brpopQueue, WorkerEv.mgetCycleKeys, WorkerEv.acquireToken,
       WorkerEv.fetchBegin, WorkerEv.fetchEnd,
       WorkerEv.bucketOkIncrement, WorkerEv.bucketLatencyPush,
       WorkerEv.streamAppend, WorkerEv.logSuccess] := rfl
  rw [htrace]
  exact ⟨by decide, by decide⟩

/-! ## Retry policy (the `axiosRetry(httpClient, ...)` configuration) -/

/-- What the retry predicate sees of a failed request: whether the error is
network-class (`axiosRetry.isNetworkError`) and the response status, absent
when there was no response. -/
structure HttpErr where
  isNetwork : Bool
  status : Option Nat
deriving DecidableEq

/-- The configured `retryCondition`:
`status = err.response?.status ?? 0` and then
`isNetworkError(err) || [429, 500, 502, 503, 504].includes(status)`. -/
def retryCondition (isNetworkError : Bool) (status : Option Nat) : Bool :=
  isNetworkError || [429, 500, 502, 503, 504].contains (status.getD 0)

/-- Modelled from the spec: the claim's retry-eligibility wording —
network-class errors, HTTP 429, and any 5xx status. -/
def specRetryEligible (isNetworkError : Bool) (status : Option Nat) : Bool :=
  isNetworkError ||
    match status with
    | some s => s == 429 || (500 ≤ s && s ≤ 599)
    | none => false

/-- The configured `retryDelay`: a present `Retry-After` header (seconds)
overrides; otherwise full jitter on a cap of `min(32000, 1000 * 2 ^ k)`
milliseconds, with the `Math.random()` draw passed in as `rand`. -/
def retryDelay (retryCount : Nat) (retryAfterSeconds : Option ℚ) (rand : ℚ) : ℚ :=
  match retryAfterSeconds with
  | some ra => ra * 1000
  | none => rand * min 32000 (1000 * (2 : ℚ) ^ retryCount)

/-- The configured `retries` option of `axiosRetry`. -/
def axiosRetryRetries : Nat := 5

/-- Modelled from the spec of the `axios-retry` library (its code is not in
this repository): run attempt `k`; on a retry-eligible error with retries
remaining, run the next attempt, otherwise fail with that error. -/
def axiosRunAux (attempt : Nat → Except HttpErr Unit) : Nat → Nat → Except HttpErr Unit
  | k, 0 => attempt k
  | k, n + 1 =>
    match attempt k with
    | Except.ok v => Except.ok v
    | Except.error e =>
      if retryCondition e.isNetwork e.status then axiosRunAux attempt (k + 1) n
      else Except.error e

/-- A full request through the retrying client: the initial attempt plus up
to `axiosRetryRetries` retries. -/
def axiosRun (attempt : Nat → Except HttpErr Unit) : Except HttpErr Unit :=
  axiosRunAux attempt 0 axiosRetryRetries

/-- C5 counterexample: HTTP 501 is a 5xx status, so the claim's condition
makes it retry-eligible, but the configured `retryCondition` — which lists
exactly 429, 500, 502, 503 and 504 — does not retry it.  Moreover
`retries: 5` means five retries after the initial request, so a run can
reach a sixth attempt (index 5): under "up to 5 attempts" the run below
would have failed, yet it succeeds on attempt index 5. -/
theorem retry_policy_counterexample :
    retryCondition false (some 501) = false ∧
    specRetryEligible false (some 501) = true ∧
    axiosRun (fun k =>
      if k == 5 then Except.ok () else Except.error { isNetwork := true, status := none }) =
      Except.ok () := by
  refine ⟨by decide, by decide, rfl⟩

/-- C5 amended: the upstream fetch makes one initial attempt plus up to 5
retries; the retry-eligible conditions are exactly network-class errors and
HTTP 429, 500, 502, 503, 504; a `Retry-After` header (seconds) overrides
the computed delay for that attempt, and otherwise the full-jitter delay is
at most 32 s; after exhausting the retries the fetch fails with the last
error. -/
theorem retry_policy :
    axiosRetryRetries = 5 ∧
    (∀ (isNet : Bool) (s : Nat),
      retryCondition isNet (some s) = true ↔
        (isNet = true ∨ s = 429 ∨ s = 500 ∨ s = 502 ∨ s = 503 ∨ s = 504)) ∧
    (∀ (isNet : Bool), retryCondition isNet none = isNet) ∧
    (∀ (k : Nat) (ra rand : ℚ), retryDelay k (some ra) rand = ra * 1000) ∧
    (∀ (k : Nat) (rand : ℚ), 0 ≤ rand → rand ≤ 1 → retryDelay k none rand ≤ 32000) ∧
    (∀ (attempt : Nat → Except HttpErr Unit) (e : Nat → HttpErr),
      (∀ k, k ≤ 5 → attempt k = Except.error (e k)) →
      (∀ k, k ≤ 5 → retryCondition (e k).isNetwork (e k).status = true) →
      axiosRun attempt = Except.error (e 5)) := by
  refine ⟨rfl, ?_, ?_, ?_, ?_, ?_⟩
  · intro isNet s
    simp [retryCondition, List.contains_cons]
  · intro isNet
    cases isNet <;> decide
  · intro k ra rand
    rfl
  · intro k rand h0 h1
    show rand * min 32000 (1000 * (2 : ℚ) ^ k) ≤ 32000
    have hmin : min (32000 : ℚ) (1000 * (2 : ℚ) ^ k) ≤ 32000 := min_le_left _ _
    have hminpos : (0 : ℚ) ≤ min 32000 (1000 * (2 : ℚ) ^ k) := by
      apply le_min
      · norm_num
      · positivity
    calc rand * min 32000 (1000 * (2 : ℚ) ^ k)
        ≤ 1 * min 32000 (1000 * (2 : ℚ) ^ k) := by
          exact mul_le_mul_of_nonneg_right h1 hminpos
      _ = min 32000 (1000 * (2 : ℚ) ^ k) := one_mul _
      _ ≤ 32000 := hmin
  · intro attempt e hA hC
    show axiosRunAux attempt 0 5 = Except.error (e 5)
    simp only [axiosRunAux, hA 0 (by omega), hA 1 (by omega), hA 2 (by omega),
      hA 3 (by omega), hA 4 (by omega), hA 5 (by omega),
      hC 0 (by omega), hC 1 (by omega), hC 2 (by omega), hC 3 (by omega), hC 4 (by omega),
      if_true]

theorem retry_policy_witness :
    retryCondition false (some 429) = true ∧
    retryDelay 3 (some 7) 0 = 7 * 1000 ∧
    axiosRun (fun _ => Except.error { isNetwork := true, status := none }) =
      Except.error { isNetwork := true, status := none } := by
  refine ⟨(retry_policy.2.1 false 429).mpr (Or.inr (Or.inl rfl)),
    retry_policy.2.2.2.1 3 7 0, ?_⟩
  exact retry_policy.2.2.2.2.2 (fun _ => Except.error { isNetwork := true, status := none })
    (fun _ => { isNetwork := true, status := none }) (fun k _ => rfl) (fun k _ => rfl)

/-! ## Stream consumer (`consumer.ts`): field parsing -/

/-- A JavaScript number as produced by `parseFloat`: NaN, a signed
infinity, or a finite value. -/
inductive JSNumber where
  | nan
  | inf (negative : Bool)
  | finite (val : ℚ)
deriving DecidableEq

/-- Whitespace accepted before a `parseFloat` literal. -/
def isJsWhitespace (c : Char) : Bool :=
  c = ' ' || c = '\t' || c = '\n' || c = '\r' || c = '\x0b' || c = '\x0c'

/-- Value of a list of decimal digit characters. -/
def digitsToNat (cs : List Char) : Nat :=
  cs.foldl (fun a c => 10 * a + (c.toNat - 48)) 0

/-- The optional exponent suffix of a decimal literal: sign then digits; an
exponent marker not followed by a digit is not part of the literal. -/
def parseExpSuffix (cs : List Char) : Int :=
  let signed : Bool × List Char :=
    match cs with
    | '+' :: rest => (false, rest)
    | '-' :: rest => (true, rest)
    | _ => (false, cs)
  let ds := signed.2.takeWhile Char.isDigit
  if ds.isEmpty then 0
  else if signed.1 then -(digitsToNat ds : Int) else (digitsToNat ds : Int)

/-- `parseFloat(s)`: skip whitespace, read an optional sign, then the
longest prefix that is a decimal literal (`Infinity`, or digits with an
optional fraction and exponent); when no such prefix exists the result is
NaN. -/
def jsParseFloat (s : String) : JSNumber :=
  let cs := s.data.dropWhile fun c => isJsWhitespace c
  let signed : Bool × List Char :=
    match cs with
    | '+' :: rest => (false, rest)
    | '-' :: rest => (true, rest)
    | _ => (false, cs)
  let neg := signed.1
  let cs1 := signed.2
  if cs1.take 8 = "Infinity".data then JSNumber.inf neg
  else
    let intDigits := cs1.takeWhile Char.isDigit
    let afterInt := cs1.drop intDigits.length
    let fracDigits : List Char :=
      match afterInt with
      | '.' :: rest => rest.takeWhile Char.isDigit
      | _ => []
    let afterFrac : List Char :=
      match afterInt with
      | '.' :: rest => rest.drop (rest.takeWhile Char.isDigit).length
      | _ => afterInt
    if intDigits.isEmpty ∧ fracDigits.isEmpty then JSNumber.nan
    else
      let expVal : Int :=
        match afterFrac with
        | 'e' :: rest => parseExpSuffix rest
        | 'E' :: rest => parseExpSuffix rest
        | _ => 0
      let mag : ℚ :=
        (digitsToNat intDigits : ℚ) + (digitsToNat fracDigits : ℚ) / (10 : ℚ) ^ fracDigits.length
      let value := (if neg then -mag else mag) * (10 : ℚ) ^ expVal
      JSNumber.finite value

/-- Zero-padded decimal rendering. -/
def padNum (width n : Nat) : String :=
  let s := toString n
  String.mk (List.replicate (width - s.length) '0') ++ s

/-- Render an `ISODate` back to the `YYYY-MM-DDTHH:MM:SS.sssZ` string. -/
def isoRender (dt : ISODate) : String :=
  (if dt.year < 0 then "-" else "") ++ padNum 4 dt.year.natAbs ++ "-" ++ padNum 2 dt.month
    ++ "-" ++ padNum 2 dt.day ++ "T" ++ padNum 2 dt.hour ++ ":" ++ padNum 2 dt.minute
    ++ ":" ++ padNum 2 dt.second ++ "." ++ padNum 3 dt.millisecond ++ "Z"

/-- The record `parseMessage` builds from a stream entry. -/
structure WeatherRecord where
  id : String
  city_name : String
  latitude : JSNumber
  longitude : JSNumber
  temperature : JSNumber
  weather_condition : String
  recorded_at : String
deriving DecidableEq

/-- The key/value pairs of the flat field array, as JavaScript builds them:
keys at even positions, the following value or `undefined` when the array
ends early. -/
def fieldPairs : List String → List (String × Option String)
  | [] => []
  | [k] => [(k, none)]
  | k :: v :: rest => (k, some v) :: fieldPairs rest

/-- Reading `map[key]` after the building loop: the value of the last
assignment to the key; an assignment of `undefined` (odd-length tail) is
nullish, exactly as `?? ` treats an absent property. -/
def mapGet (fields : List String) (key : String) : Option String :=
  (fieldPairs fields).foldl (fun acc kv => if kv.1 = key then kv.2 else acc) none

/-- `parseMessage(id, fields)`, with `new Date()` (the fallback timestamp)
passed in as `nowMs`. -/
def parseMessage (id : String) (fields : List String) (nowMs : Int) : WeatherRecord :=
  { id := id
    city_name := (mapGet fields "city_name").getD "unknown"
    latitude := jsParseFloat ((mapGet fields "latitude").getD "0")
    longitude := jsParseFloat ((mapGet fields "longitude").getD "0")
    temperature := jsParseFloat ((mapGet fields "temperature").getD "0")
    weather_condition := (mapGet fields "weather_condition").getD "unknown"
    recorded_at := (mapGet fields "recorded_at").getD (isoRender (msToISO nowMs)) }

theorem jsParseFloat_zero : jsParseFloat "0" = JSNumber.finite 0 := by
  have h : jsParseFloat "0" =
      JSNumber.finite ((((0 : ℕ) : ℚ) + ((0 : ℕ) : ℚ) / (10 : ℚ) ^ (0 : ℕ)) *
        (10 : ℚ) ^ (0 : ℤ)) := rfl
  rw [h]
  norm_num

/-- C10: `parseMessage` is total — it is a function on every entry id and
every field array, including odd-length arrays — and for each field the
default (`unknown`, `0`, the current instant) applies exactly when the key
has no value in the array, while a present but non-numeric latitude,
longitude or temperature value yields NaN rather than the numeric default
`0`. -/
theorem parseMessage_semantics (id : String) (fields : List String) (nowMs : Int) :
    (mapGet fields "city_name" = none →
      (parseMessage id fields nowMs).city_name = "unknown") ∧
    (∀ v, mapGet fields "city_name" = some v →
      (parseMessage id fields nowMs).city_name = v) ∧
    (mapGet fields "latitude" = none →
      (parseMessage id fields nowMs).latitude = JSNumber.finite 0) ∧
    (∀ v, mapGet fields "latitude" = some v →
      (parseMessage id fields nowMs).latitude = jsParseFloat v) ∧
    (∀ v, mapGet fields "latitude" = some v → jsParseFloat v = JSNumber.nan →
      (parseMessage id fields nowMs).latitude = JSNumber.nan) ∧
    (mapGet fields "longitude" = none →
      (parseMessage id fields nowMs).longitude = JSNumber.finite 0) ∧
    (∀ v, mapGet fields "longitude" = some v → jsParseFloat v = JSNumber.nan →
      (parseMessage id fields nowMs).longitude = JSNumber.nan) ∧
    (mapGet fields "temperature" = none →
      (parseMessage id fields nowMs).temperature = JSNumber.finite 0) ∧
    (∀ v, mapGet fields "temperature" = some v → jsParseFloat v = JSNumber.nan →
      (parseMessage id fields nowMs).temperature = JSNumber.nan) ∧
    (mapGet fields "weather_condition" = none →
      (parseMessage id fields nowMs).weather_condition = "unknown") ∧
    (mapGet fields "recorded_at" = none →
      (parseMessage id fields nowMs).recorded_at = isoRender (msToISO nowMs)) ∧
    (parseMessage id fields nowMs).id = id := by
  refine ⟨?_, ?_, ?_, ?_, ?_, ?_, ?_, ?_, ?_, ?_, ?_, rfl⟩ <;>
    simp only [parseMessage]
  · intro h; rw [h]; rfl
  · intro v h; rw [h]; rfl
  · intro h; rw [h]; exact jsParseFloat_zero
  · intro v h; rw [h]; rfl
  · intro v h hnan; rw [h]; exact hnan
  · intro h; rw [h]; exact jsParseFloat_zero
  · intro v h hnan; rw [h]; exact hnan
  · intro h; rw [h]; exact jsParseFloat_zero
  · intro v h hnan; rw [h]; exact hnan
  · intro h; rw [h]; rfl
  · intro h; rw [h]; rfl

theorem parseMessage_semantics_witness :
    (parseMessage "1-0" ["latitude", "abc", "city_name"] 0).latitude = JSNumber.nan ∧
    (parseMessage "1-0" ["latitude", "abc", "city_name"] 0).city_name = "unknown" ∧
    (parseMessage "1-0" ["latitude", "abc", "city_name"] 0).temperature =
      JSNumber.finite 0 := by
  have h := parseMessage_semantics "1-0" ["latitude", "abc", "city_name"] 0
  exact ⟨h.2.2.2.2.1 "abc" rfl (by decide), h.1 rfl, h.2.2.2.2.2.2.2.1 rfl⟩

/-! ## Stream consumer: acknowledgement (`processMessages`) -/

/-- A stream entry as delivered by `XREADGROUP`: its id and flat field
array. -/
structure Entry where
  id : String
  fields : List String
deriving DecidableEq

/-- `processMessages(redis, messages, onRecord)`: for each entry, parse it,
run the record handler (`handler` returns `false` when `onRecord` rejects),
and `XACK` only on success; a failure is logged and leaves the pending list
untouched.  Returns the acknowledged ids and the broker's pending-entry-id
list after the `XACK`s. -/
def processMessages (handler : WeatherRecord → Bool) (nowMs : Int) :
    List Entry → List String → List String × List String
  | [], pending => ([], pending)
  | msg :: rest, pending =>
    if handler (parseMessage msg.id msg.fields nowMs) then
      let r := processMessages handler nowMs rest (pending.erase msg.id)
      (msg.id :: r.1, r.2)
    else processMessages handler nowMs rest pending

theorem processMessages_acked_sub (handler : WeatherRecord → Bool) (nowMs : Int) :
    ∀ (msgs : List Entry) (pending : List String),
      ∀ x ∈ (processMessages handler nowMs msgs pending).1, x ∈ msgs.map Entry.id := by
  intro msgs
  induction msgs with
  | nil => intro pending x hx; simp [processMessages] at hx
  | cons msg rest ih =>
    intro pending x hx
    by_cases hh : handler (parseMessage msg.id msg.fields nowMs)
    · simp only [processMessages, if_pos hh, List.mem_cons] at hx
      rcases hx with hx | hx
      · simp [hx]
      · exact List.mem_cons_of_mem _ (ih (pending.erase msg.id) x hx)
    · simp only [processMessages, if_neg hh] at hx
      exact List.mem_cons_of_mem _ (ih pending x hx)

theorem processMessages_pending_untouched (handler : WeatherRecord → Bool) (nowMs : Int) :
    ∀ (msgs : List Entry) (pending : List String) (x : String),
      x ∈ pending → x ∉ msgs.map Entry.id →
      x ∈ (processMessages handler nowMs msgs pending).2 := by
  intro msgs
  induction msgs with
  | nil => intro pending x hx _; simpa [processMessages] using hx
  | cons msg rest ih =>
    intro pending x hx hnotin
    simp only [List.map_cons, List.mem_cons, not_or] at hnotin
    by_cases hh : handler (parseMessage msg.id msg.fields nowMs)
    · simp only [processMessages, if_pos hh]
      exact ih (pending.erase msg.id) x (List.mem_erase_of_ne hnotin.1 |>.mpr hx) hnotin.2
    · simp only [processMessages, if_neg hh]
      exact ih pending x hx hnotin.2

/-- C3: for every delivered entry, the entry is acknowledged (`XACK`) iff
the record handler returned without error for it; on handler failure the
entry is not acknowledged and, if it was pending, it remains pending. -/
theorem processMessages_ack_iff (handler : WeatherRecord → Bool) (nowMs : Int) :
    ∀ (msgs : List Entry) (pending : List String), (msgs.map Entry.id).Nodup →
      ∀ e ∈ msgs,
        (e.id ∈ (processMessages handler nowMs msgs pending).1 ↔
          handler (parseMessage e.id e.fields nowMs) = true) ∧
        (handler (parseMessage e.id e.fields nowMs) = false → e.id ∈ pending →
          e.id ∈ (processMessages handler nowMs msgs pending).2) := by
  intro msgs
  induction msgs with
  | nil => intro pending _ e he; simp at he
  | cons msg rest ih =>
    intro pending hnodup e he
    simp only [List.map_cons, List.nodup_cons] at hnodup
    rcases List.mem_cons.mp he with rfl | hrest
    · by_cases hh : handler (parseMessage e.id e.fields nowMs)
      · constructor
        · simp [processMessages, hh]
        · intro hfalse; rw [hh] at hfalse; exact absurd hfalse (by simp)
      · constructor
        · simp only [processMessages, if_neg hh]
          constructor
          · intro hmem
            exact absurd (processMessages_acked_sub handler nowMs rest pending e.id hmem)
              hnodup.1
          · intro ht; exact absurd ht hh
        · intro _ hpend
          simp only [processMessages, if_neg hh]
          exact processMessages_pending_untouched handler nowMs rest pending e.id hpend
            hnodup.1
    · have hne : e.id ≠ msg.id := by
        intro heq
        exact hnodup.1 (heq ▸ List.mem_map_of_mem Entry.id hrest)
      by_cases hh : handler (parseMessage msg.id msg.fields nowMs)
      · have hi := ih (pending.erase msg.id) hnodup.2 e hrest
        constructor
        · simp only [processMessages, if_pos hh, List.mem_cons]
          rw [or_iff_right hne]
          exact hi.1
        · intro hfalse hpend
          simp only [processMessages, if_pos hh]
          exact hi.2 hfalse ((List.mem_erase_of_ne hne).mpr hpend)
      · have hi := ih pending hnodup.2 e hrest
        constructor
        · simp only [processMessages, if_neg hh]
          exact hi.1
        · intro hfalse hpend
          simp only [processMessages, if_neg hh]
          exact hi.2 hfalse hpend

theorem processMessages_ack_iff_witness :
    "1-1" ∈ (processMessages (fun _ => true) 0
      [{ id := "1-1", fields := [] }] ["1-1"]).1 := by
  have h := processMessages_ack_iff (fun _ => true) 0
    [{ id := "1-1", fields := [] }] ["1-1"] (by simp)
    { id := "1-1", fields := [] } (by simp)
  exact h.1.mpr rfl

/-! ## Stream consumer: startup phases (`startConsumer`) -/

/-- One `XREADGROUP` call as the consumer loop sees it: a read of the
consumer's own pending entries (ID `0`) or a read of new entries (ID `>`),
with the number of entries returned. -/
inductive ReadEv where
  | readPending (returned : Nat)
  | readNew (returned : Nat)
deriving DecidableEq

/-- Broker state for one consumer: its pending entry list and the
not-yet-delivered tail of the stream. -/
structure ConsumerState where
  pel : List Entry
  fresh : List Entry
deriving DecidableEq

/-- Acknowledge the successes of a processed batch against a pending list:
each handled-without-error entry of the batch is `XACK`ed (removed by id). -/
def ackBatch (handler : WeatherRecord → Bool) (nowMs : Int)
    (batch : List Entry) (pel : List Entry) : List Entry :=
  batch.foldl
    (fun p e =>
      if handler (parseMessage e.id e.fields nowMs) then p.filter (fun x => x.id ≠ e.id)
      else p)
    pel

/-- Phase 2 of `startConsumer`: repeatedly read new entries (ID `>`, batch
size 50), which delivers them into the pending list, process them, and ack
the successes.  `fuel` bounds the number of loop iterations observed. -/
def newPhase (handler : WeatherRecord → Bool) (nowMs : Int) :
    Nat → ConsumerState → List ReadEv
  | 0, _ => []
  | fuel + 1, st =>
    let batch := st.fresh.take 50
    ReadEv.readNew batch.length ::
      newPhase handler nowMs fuel
        { pel := ackBatch handler nowMs batch (st.pel ++ batch), fresh := st.fresh.drop 50 }

/-- `startConsumer` after `ensureGroup`: phase 1 reads the consumer's own
pending entries (ID `0`, batch size 50, no blocking) and processes each
batch until a read returns none, and only then enters phase 2, the new
message loop (ID `>`). -/
def consumerLoop (handler : WeatherRecord → Bool) (nowMs : Int) :
    Nat → ConsumerState → List ReadEv
  | 0, _ => []
  | fuel + 1, st =>
    let batch := st.pel.take 50
    if batch.isEmpty then ReadEv.readPending 0 :: newPhase handler nowMs fuel st
    else
      ReadEv.readPending batch.length ::
        consumerLoop handler nowMs fuel
          { pel := ackBatch handler nowMs batch st.pel, fresh := st.fresh }

theorem newPhase_all_new (handler : WeatherRecord → Bool) (nowMs : Int) :
    ∀ (fuel : Nat) (st : ConsumerState),
      ∀ ev ∈ newPhase handler nowMs fuel st, ∃ n, ev = ReadEv.readNew n := by
  intro fuel
  induction fuel with
  | zero => intro st ev hev; simp [newPhase] at hev
  | succ n ih =>
    intro st ev hev
    simp only [newPhase, List.mem_cons] at hev
    rcases hev with rfl | hev
    · exact ⟨_, rfl⟩
    · exact ih _ ev hev

/-- C4: every trace of the consumer loop splits into a phase of pending
reads (ID `0`) followed by a phase of new-entry reads (ID `>`); if any new
read happens at all, the last pending read returned none — the consumer
drains its own pending entries in bounded batches until a read returns
none and only then issues its first read for new entries. -/
theorem consumerLoop_phase_order (handler : WeatherRecord → Bool) (nowMs : Int) :
    ∀ (fuel : Nat) (st : ConsumerState),
      ∃ p q, consumerLoop handler nowMs fuel st = p ++ q ∧
        (∀ ev ∈ p, ∃ n, ev = ReadEv.readPending n) ∧
        (∀ ev ∈ q, ∃ n, ev = ReadEv.readNew n) ∧
        (q ≠ [] → p.getLast? = some (ReadEv.readPending 0)) := by
  intro fuel
  induction fuel with
  | zero =>
    intro st
    exact ⟨[], [], rfl, by simp, by simp, by simp⟩
  | succ n ih =>
    intro st
    by_cases hb : (st.pel.take 50).isEmpty
    · refine ⟨[ReadEv.readPending 0], newPhase handler nowMs n st, ?_, ?_, ?_, ?_⟩
      · simp [consumerLoop, hb]
      · simp
      · exact newPhase_all_new handler nowMs n st
      · intro _; rfl
    · obtain ⟨p, q, heq, hp, hq, hlast⟩ :=
        ih { pel := ackBatch handler nowMs (st.pel.take 50) st.pel, fresh := st.fresh }
      refine ⟨ReadEv.readPending (st.pel.take 50).length :: p, q, ?_, ?_, hq, ?_⟩
      · simp [consumerLoop, hb, heq]
      · intro ev hev
        rcases List.mem_cons.mp hev with rfl | hev
        · exact ⟨_, rfl⟩
        · exact hp ev hev
      · intro hqne
        have hpne : p ≠ [] := by
          intro hnil
          rw [hnil] at hlast
          simp at hlast
          exact absurd hlast hqne
        cases p with
        | nil => exact absurd rfl hpne
        | cons a l =>
          rw [List.getLast?_cons_cons]
          exact hlast hqne

theorem consumerLoop_phase_order_witness :
    ∃ p q, consumerLoop (fun _ => true) 0 3
        { pel := [{ id := "1-1", fields := [] }], fresh := [{ id := "2-1", fields := [] }] }
        = p ++ q ∧
      (∀ ev ∈ p, ∃ n, ev = ReadEv.readPending n) ∧
      (∀ ev ∈ q, ∃ n, ev = ReadEv.readNew n) ∧
      (q ≠ [] → p.getLast? = some (ReadEv.readPending 0)) :=
  consumerLoop_phase_order (fun _ => true) 0 3
    { pel := [{ id := "1-1", fields := [] }], fresh := [{ id := "2-1", fields := [] }] }

end Weather
